import Mathlib

/-
Verification of the correlation and insight engine of the daily-diary
application (src/daily_diary/services/analysis.py) against its
natural-language specification.

The embedding below is shallow: each Python function of the analysis
service is translated to a Lean function over explicit record types.
Numeric cells are modelled as rationals (the engine's arithmetic is exact
on the finite data it touches; no claim under study depends on float
rounding error, and Python's `round` half-to-even is modelled exactly on
rationals).  Nullable cells (pandas NaN) are `Option` values.  The scipy
statistics routines (`pearsonr`, `pointbiserialr`) are external
collaborators: they are passed in as function parameters, a statistics
routine returning `none` standing for a raised exception, so every
theorem quantifying over them holds for the real routines.
-/

set_option allowUnsafeReducibility true

attribute [semireducible] Rat.add Rat.mul Rat.sub Rat.div Rat.inv Rat.neg Rat.normalize Rat.blt Rat.ofScientific

namespace DailyDiary

/-- Mean of a list of rationals (`Series.mean` on non-null data);
junk value 0 on the empty list, which every caller guards against. -/
def qMean (l : List ℚ) : ℚ := l.sum / l.length

/-- Mean of a boolean 0/1 column (`Series.mean` on bools): the fraction
of `true` entries.  Junk 0 on the empty list, guarded by callers. -/
def boolRate (l : List Bool) : ℚ := ((l.filter id).length : ℚ) / l.length

/-- Round half to even to the nearest integer (Python `round` semantics). -/
def roundHalfEven (q : ℚ) : ℤ :=
  let f : ℤ := ⌊q⌋
  let r : ℚ := q - f
  if r < 1/2 then f
  else if 1/2 < r then f + 1
  else if f % 2 = 0 then f else f + 1

/-- Python `round(q, n)`: round half to even at the n-th decimal. -/
def roundTo (n : ℕ) (q : ℚ) : ℚ := (roundHalfEven (q * 10 ^ n) : ℚ) / 10 ^ n

/-- Positional shift of a column by `k` rows (pandas `Series.shift(k)`):
the first `k` cells become null, the last `k` cells fall off the end. -/
def colShift (k : ℕ) (l : List (Option ℚ)) : List (Option ℚ) :=
  List.replicate (min k l.length) none ++ l.take (l.length - k)

/-- Row-aligned pairing of a factor column with the target column keeping
rows where both are non-null (`mask = col.notna() & target.notna()`). -/
def pairedData (xs ys : List (Option ℚ)) : List (ℚ × ℚ) :=
  (xs.zip ys).filterMap fun ab =>
    match ab with
    | (some x, some y) => some (x, y)
    | _ => none

/-- First-occurrence deduplication (pandas `Series.unique` order). -/
def uniqueFirstAux [DecidableEq α] : List α → List α → List α
  | _, [] => []
  | seen, x :: xs =>
    if x ∈ seen then uniqueFirstAux seen xs
    else x :: uniqueFirstAux (x :: seen) xs

/-- `Series.unique`: distinct values in order of first appearance. -/
def uniqueFirst [DecidableEq α] (l : List α) : List α := uniqueFirstAux [] l

/-- Maximum of a list of rationals (`Series.max`), junk 0 when empty. -/
def qMax : List ℚ → ℚ
  | [] => 0
  | x :: xs => xs.foldl max x

/-- Minimum of a list of rationals (`Series.min`), junk 0 when empty. -/
def qMin : List ℚ → ℚ
  | [] => 0
  | x :: xs => xs.foldl min x

/-- `Series.quantile(p)` with pandas' default linear interpolation:
sort the values and interpolate at fractional position `p * (n - 1)`. -/
def quantile (p : ℚ) (vals : List ℚ) : ℚ :=
  let s := List.insertionSort (fun a b : ℚ => a ≤ b) vals
  let h : ℚ := p * ((s.length : ℚ) - 1)
  let i : ℕ := (⌊h⌋).toNat
  let lo := s.getD i 0
  let hi := s.getD (i + 1) lo
  lo + (h - (i : ℚ)) * (hi - lo)

/-! ## Daily feature table builder (`AnalysisService.build_dataframe`)

One `DailyRec` is a row of the storage collaborator's
`get_analysis_data` result (the `daily_summary` join), restricted to the
columns the builder post-processes.  Dates are encoded as day counts
from a Monday epoch, so pandas `dayofweek` (Monday = 0) is `date % 7`. -/

structure DailyRec where
  entry_date : ℕ
  sleep_score : Option ℚ
  total_sleep_minutes : Option ℚ
  pressure_hpa : Option ℚ
  total_caffeine_mg : Option ℚ
  total_alcohol_units : Option ℚ
  total_activity_minutes : Option ℚ
  total_elevation_m : Option ℚ
  has_headache : Bool
deriving DecidableEq, Repr

/-- A row of the built feature table: the raw daily columns plus the
derived `day_of_week` / `is_weekend` columns and the positional
previous-day shadow columns added by `build_dataframe`. -/
structure FeatureRow where
  entry_date : ℕ
  sleep_score : Option ℚ
  total_sleep_minutes : Option ℚ
  pressure_hpa : Option ℚ
  total_caffeine_mg : Option ℚ
  total_alcohol_units : Option ℚ
  total_activity_minutes : Option ℚ
  total_elevation_m : Option ℚ
  has_headache : Bool
  day_of_week : ℕ
  is_weekend : Bool
  total_activity_minutes_prev_day : Option ℚ
  total_elevation_m_prev_day : Option ℚ
  total_alcohol_units_prev_day : Option ℚ
  sleep_score_prev_day : Option ℚ
  total_sleep_minutes_prev_day : Option ℚ
  total_caffeine_mg_prev_day : Option ℚ
  pressure_hpa_prev_day : Option ℚ
deriving DecidableEq, Repr

/-- Non-strict date order on daily rows (the `sort_index` key). -/
def recDateLE (a b : DailyRec) : Prop := a.entry_date ≤ b.entry_date

/-- Strict date order on daily rows. -/
def recDateLT (a b : DailyRec) : Prop := a.entry_date < b.entry_date

instance : DecidableRel recDateLE := fun a b => Nat.decLe a.entry_date b.entry_date

instance : DecidableRel recDateLT := fun a b => Nat.decLt a.entry_date b.entry_date

instance : IsTotal DailyRec recDateLE := ⟨fun a b => Nat.le_total a.entry_date b.entry_date⟩

instance : IsTrans DailyRec recDateLE := ⟨fun _ _ _ h1 h2 => Nat.le_trans h1 h2⟩

instance : IsAntisymm DailyRec recDateLT :=
  ⟨fun _ _ h1 h2 => absurd (Nat.lt_trans h1 h2) (Nat.lt_irrefl _)⟩

/-- `df.set_index('date').sort_index()`: stable ascending sort by date. -/
def sortByDate (recs : List DailyRec) : List DailyRec :=
  List.insertionSort recDateLE recs

/-- Build one feature row from a daily record and the record of the
previous row in the sorted sequence (`shift(1)` semantics: the shadow
columns read the prior row's cells, null on the first row). -/
def mkFeatureRow (prev : Option DailyRec) (r : DailyRec) : FeatureRow where
  entry_date := r.entry_date
  sleep_score := r.sleep_score
  total_sleep_minutes := r.total_sleep_minutes
  pressure_hpa := r.pressure_hpa
  total_caffeine_mg := r.total_caffeine_mg
  total_alcohol_units := r.total_alcohol_units
  total_activity_minutes := r.total_activity_minutes
  total_elevation_m := r.total_elevation_m
  has_headache := r.has_headache
  day_of_week := r.entry_date % 7
  is_weekend := r.entry_date % 7 ≥ 5
  total_activity_minutes_prev_day := prev.bind DailyRec.total_activity_minutes
  total_elevation_m_prev_day := prev.bind DailyRec.total_elevation_m
  total_alcohol_units_prev_day := prev.bind DailyRec.total_alcohol_units
  sleep_score_prev_day := prev.bind DailyRec.sleep_score
  total_sleep_minutes_prev_day := prev.bind DailyRec.total_sleep_minutes
  total_caffeine_mg_prev_day := prev.bind DailyRec.total_caffeine_mg
  pressure_hpa_prev_day := prev.bind DailyRec.pressure_hpa

/-- Walk the sorted records pairing each with its predecessor. -/
def featureRowsAux : Option DailyRec → List DailyRec → List FeatureRow
  | _, [] => []
  | prev, r :: rest => mkFeatureRow prev r :: featureRowsAux (some r) rest

/-- `AnalysisService.build_dataframe` (SQLite path): sort the daily rows
by date ascending, add `day_of_week` / `is_weekend`, and add the
`_prev_day` shadow columns by positional shift of one row.  When fewer
rows than `min_days` exist the builder degrades to the empty table (the
JSON fallback with insufficient data returns an empty frame). -/
def build_dataframe (recs : List DailyRec) (min_days : ℕ) : List FeatureRow :=
  if recs.length < min_days ∨ recs.isEmpty then []
  else featureRowsAux none (sortByDate recs)

/-! ### Determinism of the builder (claim C9) -/

theorem featureRowsAux_map_date (p : Option DailyRec) (l : List DailyRec) :
    (featureRowsAux p l).map FeatureRow.entry_date = l.map DailyRec.entry_date := by
  induction l generalizing p with
  | nil => rfl
  | cons r rest ih => simp [featureRowsAux, mkFeatureRow, ih]

theorem sortByDate_sorted (recs : List DailyRec) :
    (sortByDate recs).Sorted recDateLE :=
  List.sorted_insertionSort recDateLE recs

theorem sortByDate_perm (recs : List DailyRec) : (sortByDate recs).Perm recs :=
  List.perm_insertionSort recDateLE recs

theorem sortByDate_eq_of_perm {r1 r2 : List DailyRec} (hperm : r1.Perm r2)
    (hnodup : (r1.map DailyRec.entry_date).Nodup) :
    sortByDate r1 = sortByDate r2 := by
  have hp : (sortByDate r1).Perm (sortByDate r2) :=
    ((sortByDate_perm r1).trans hperm).trans (sortByDate_perm r2).symm
  have hs1le := sortByDate_sorted r1
  have hs2le := sortByDate_sorted r2
  have hn1 : ((sortByDate r1).map DailyRec.entry_date).Nodup :=
    (((sortByDate_perm r1).map DailyRec.entry_date).nodup_iff).mpr hnodup
  have hn2 : ((sortByDate r2).map DailyRec.entry_date).Nodup := by
    have := (hp.map DailyRec.entry_date).nodup_iff
    exact this.mp hn1
  have hlt1 : (sortByDate r1).Sorted recDateLT := by
    have hne := (List.pairwise_map).mp hn1
    exact (hs1le.and hne).imp fun h => lt_of_le_of_ne h.1 h.2
  have hlt2 : (sortByDate r2).Sorted recDateLT := by
    have hne := (List.pairwise_map).mp hn2
    exact (hs2le.and hne).imp fun h => lt_of_le_of_ne h.1 h.2
  exact List.eq_of_perm_of_sorted hp hlt1 hlt2

/-- C9.  Building the feature table is a pure function of the set of
underlying daily records: for fixed date range and minimum-days
threshold, two builds from identical stored records (the same rows, in
whatever retrieval order) yield identical tables cell for cell —
including the derived day-of-week, weekend and previous-day columns —
and the dates come out in ascending order. -/
theorem C9_build_dataframe_deterministic {r1 r2 : List DailyRec} (min_days : ℕ)
    (hperm : r1.Perm r2) (hnodup : (r1.map DailyRec.entry_date).Nodup) :
    build_dataframe r1 min_days = build_dataframe r2 min_days ∧
      ((build_dataframe r1 min_days).map FeatureRow.entry_date).Sorted (· ≤ ·) := by
  have hlen : r1.length = r2.length := hperm.length_eq
  have hsort := sortByDate_eq_of_perm hperm hnodup
  constructor
  · unfold build_dataframe
    rw [hlen, hsort]
    rcases r1 with _ | ⟨a, l⟩ <;> rcases r2 with _ | ⟨b, m⟩ <;>
      simp_all [List.isEmpty]
  · unfold build_dataframe
    split
    · simp
    · rw [featureRowsAux_map_date]
      have := (List.pairwise_map (f := DailyRec.entry_date)
        (l := sortByDate r1) (R := (· ≤ ·))).mpr
      exact this (sortByDate_sorted r1)

/-- Concrete records exercising C9: the same two days retrieved in the
two possible orders. -/
def c9recA : DailyRec :=
  ⟨3, some 80, none, some (1013/1), none, none, some 30, none, false⟩

/-- Second concrete record for the C9 witness. -/
def c9recB : DailyRec :=
  ⟨4, some 60, none, some (999/1), none, none, none, none, true⟩

/-- Witness for C9 at a concrete input: permuted two-day record lists
with distinct dates build identical, date-sorted tables. -/
theorem C9_witness :
    ([c9recA, c9recB].Perm [c9recB, c9recA] ∧
      ([c9recA, c9recB].map DailyRec.entry_date).Nodup) ∧
      build_dataframe [c9recA, c9recB] 2 = build_dataframe [c9recB, c9recA] 2 :=
  ⟨⟨by decide, by decide⟩,
    (C9_build_dataframe_deterministic 2 (by decide) (by decide)).1⟩

/-! ## Pattern detector and insight generator

`find_symptom_patterns` and `get_actionable_insights` consult a slice of
the feature table: the derived calendar columns, the symptom indicator
and a handful of numeric columns.  `ARow` models one table row on that
slice; `ATable` carries the rows together with column-presence flags for
the `'col' in df.columns` checks the two functions make.  The
`has_symptoms` field models the boolean symptom indicator column (for
the insight generator this is its resolved `symptom_col`).  Free-text
description / recommendation strings are presentation only and omitted;
every decision-relevant field is kept. -/

/-- Comparison helpers lifting a null-propagating pandas comparison: a
null cell satisfies neither `<` nor `>=` (NaN rows land in no group). -/
def oLT (o : Option ℚ) (c : ℚ) : Bool :=
  match o with
  | some v => decide (v < c)
  | none => false

/-- Null-rejecting `Series <= c` comparison. -/
def oLE (o : Option ℚ) (c : ℚ) : Bool :=
  match o with
  | some v => decide (v ≤ c)
  | none => false

/-- Null-rejecting `Series > c` comparison. -/
def oGT (o : Option ℚ) (c : ℚ) : Bool :=
  match o with
  | some v => decide (c < v)
  | none => false

/-- Null-rejecting `Series >= c` comparison. -/
def oGE (o : Option ℚ) (c : ℚ) : Bool :=
  match o with
  | some v => decide (c ≤ v)
  | none => false

structure ARow where
  day_of_week : ℕ
  is_weekend : Bool
  has_symptoms : Bool
  sleep_score : Option ℚ
  pressure_hpa : Option ℚ
  total_caffeine_mg : Option ℚ
  caffeine_prev : Option ℚ
  total_activity_minutes : Option ℚ
deriving DecidableEq, Repr

structure ATable where
  rows : List ARow
  hasSymptomCol : Bool
  hasSleepCol : Bool
  hasPressureCol : Bool
  hasCaffeineCol : Bool
  hasCaffeinePrevCol : Bool
  hasActivityCol : Bool
deriving DecidableEq, Repr

/-- A detected pattern; the human-readable description and the detail
payload are presentation text and omitted. -/
structure SymptomPattern where
  pattern_type : String
  frequency : ℚ
deriving DecidableEq, Repr

/-- `df['has_symptoms'].sum()`: number of symptom days. -/
def symCount (rows : List ARow) : ℕ := (rows.filter (·.has_symptoms)).length

/-- The distinct weekday values present in the table (the groupby keys;
pandas sorts them, but only their rate set is consumed). -/
def dowValues (rows : List ARow) : List ℕ := uniqueFirst (rows.map (·.day_of_week))

/-- `df.groupby('day_of_week')['has_symptoms'].mean()`: per observed
weekday, the mean symptom occurrence rate. -/
def dowRates (rows : List ARow) : List ℚ :=
  (dowValues rows).map fun d =>
    boolRate ((rows.filter (fun r => r.day_of_week = d)).map (·.has_symptoms))

/-- `AnalysisService.find_symptom_patterns` applied to the built table:
a day-of-week pattern when the weekday rates spread by more than 0.15,
and a weekend/weekday pattern when those two rates differ by more than
0.10 in absolute value (the two direction branches emit the same record
here because they differ only in description text). -/
def find_symptom_patterns (t : ATable) : List SymptomPattern :=
  if t.rows.isEmpty then []
  else
    let dayPats :=
      if t.hasSymptomCol ∧ 0 < symCount t.rows ∧
          qMax (dowRates t.rows) - qMin (dowRates t.rows) > 15/100 then
        [⟨"day_of_week", qMax (dowRates t.rows)⟩]
      else []
    let weekendRows := t.rows.filter (·.is_weekend)
    let weekdayRows := t.rows.filter (fun r => !r.is_weekend)
    let wRate := if 0 < weekendRows.length then boolRate (weekendRows.map (·.has_symptoms)) else 0
    let dRate := if 0 < weekdayRows.length then boolRate (weekdayRows.map (·.has_symptoms)) else 0
    let wkPats :=
      if t.hasSymptomCol ∧ |wRate - dRate| > 1/10 then
        if wRate > dRate then [⟨"weekend", wRate⟩] else [⟨"weekend", dRate⟩]
      else []
    dayPats ++ wkPats

/-- An actionable insight; the insight statement and recommendation are
presentation text and omitted. -/
structure Insight where
  category : String
  priority : String
  data_quality : String
deriving DecidableEq, Repr

/-- `priority_order = {'high': 0, 'medium': 1, 'low': 2}` with default 3. -/
def priorityRank (p : String) : ℕ :=
  if p = "high" then 0 else if p = "medium" then 1 else if p = "low" then 2 else 3

/-- Sort key order for the final priority sort of the insight list. -/
def insightLE (a b : Insight) : Prop := priorityRank a.priority ≤ priorityRank b.priority

instance : DecidableRel insightLE := fun a b => Nat.decLe (priorityRank a.priority) (priorityRank b.priority)

/-- Rows with `sleep_score < 70` (nulls excluded). -/
def lowSleepRows (rows : List ARow) : List ARow := rows.filter (fun r => oLT r.sleep_score 70)

/-- Rows with `sleep_score >= 70` (nulls excluded). -/
def highSleepRows (rows : List ARow) : List ARow := rows.filter (fun r => oGE r.sleep_score 70)

/-- Insight rule 1 (sleep): both groups at least 5 rows and the
low-sleep symptom rate strictly above 1.3 times the high-sleep rate. -/
def ruleSleep (t : ATable) : List Insight :=
  if t.hasSleepCol then
    let low := lowSleepRows t.rows
    let high := highSleepRows t.rows
    if 5 ≤ low.length ∧ 5 ≤ high.length then
      if boolRate (low.map (·.has_symptoms)) > boolRate (high.map (·.has_symptoms)) * (13/10) then
        [⟨"Sleep", "high", if 10 ≤ low.length then "good" else "limited"⟩]
      else []
    else []
  else []

/-- Insight rule 2 (weekend): the `is_weekend` column always exists in a
built table; the two direction branches emit the same record here
because they differ only in the insight text. -/
def ruleWeekend (t : ATable) : List Insight :=
  let weekend := t.rows.filter (·.is_weekend)
  let weekday := t.rows.filter (fun r => !r.is_weekend)
  if 5 ≤ weekend.length ∧ 10 ≤ weekday.length then
    if |boolRate (weekend.map (·.has_symptoms)) - boolRate (weekday.map (·.has_symptoms))| > 15/100 then
      [⟨"Lifestyle", "medium", "good"⟩]
    else []
  else []

/-- `df['caffeine_prev'] = df['total_caffeine_mg'].shift(1)` walked row
by row: each row's new cell reads the previous row's caffeine cell. -/
def setCaffeinePrev : Option ℚ → List ARow → List ARow
  | _, [] => []
  | p, r :: rest => { r with caffeine_prev := p } :: setCaffeinePrev r.total_caffeine_mg rest

/-- The in-place table mutation performed by insight rule 3: the
`caffeine_prev` column is (over)written with the shifted caffeine column. -/
def caffeineShift (t : ATable) : ATable :=
  { t with rows := setCaffeinePrev none t.rows, hasCaffeinePrevCol := true }

/-- Insight rule 3 (caffeine lag): mutates the table, then splits on
previous-day caffeine above / at-most 200 mg (the first row and null
cells fall in neither group). -/
def ruleCaffeine (t : ATable) : List Insight × ATable :=
  if t.hasCaffeineCol then
    let t2 := caffeineShift t
    let high := t2.rows.filter (fun r => oGT r.caffeine_prev 200)
    let low := t2.rows.filter (fun r => oLE r.caffeine_prev 200)
    (if 5 ≤ high.length ∧ 5 ≤ low.length then
      if boolRate (high.map (·.has_symptoms)) > boolRate (low.map (·.has_symptoms)) * (12/10) then
        [⟨"Diet", "medium", if 10 ≤ high.length then "good" else "limited"⟩]
      else []
    else [], t2)
  else ([], t)

/-- Insight rule 4 (exercise): active vs inactive split at 30 minutes. -/
def ruleExercise (t : ATable) : List Insight :=
  if t.hasActivityCol then
    let active := t.rows.filter (fun r => oGE r.total_activity_minutes 30)
    let inactive := t.rows.filter (fun r => oLT r.total_activity_minutes 30)
    if 5 ≤ active.length ∧ 5 ≤ inactive.length then
      if boolRate (inactive.map (·.has_symptoms)) > boolRate (active.map (·.has_symptoms)) * (12/10) then
        [⟨"Exercise", "medium", if 10 ≤ active.length then "good" else "limited"⟩]
      else []
    else []
  else []

/-- Rows whose pressure cell is non-null (`df[df['pressure_hpa'].notna()]`). -/
def validPressureRows (rows : List ARow) : List ARow :=
  rows.filter (fun r => r.pressure_hpa.isSome)

/-- The non-null pressure values, in row order. -/
def pressureValues (rows : List ARow) : List ℚ :=
  rows.filterMap (·.pressure_hpa)

/-- The 25th percentile of the non-null pressure values. -/
def pressureQ1 (rows : List ARow) : ℚ := quantile (1/4) (pressureValues (validPressureRows rows))

/-- The 75th percentile of the non-null pressure values. -/
def pressureQ3 (rows : List ARow) : ℚ := quantile (3/4) (pressureValues (validPressureRows rows))

/-- Valid-pressure rows strictly below the 25th pressure percentile. -/
def lowPressureRows (rows : List ARow) : List ARow :=
  (validPressureRows rows).filter (fun r => oLT r.pressure_hpa (pressureQ1 rows))

/-- Valid-pressure rows strictly above the 75th pressure percentile. -/
def highPressureRows (rows : List ARow) : List ARow :=
  (validPressureRows rows).filter (fun r => oGT r.pressure_hpa (pressureQ3 rows))

/-- Insight rule 5 (weather): requires at least 20 non-null pressure
rows overall, then at least 5 rows strictly below the 25th and strictly
above the 75th percentile, and a strict 1.3-fold rate excess. -/
def ruleWeather (t : ATable) : List Insight :=
  if t.hasPressureCol then
    if 20 ≤ (validPressureRows t.rows).length then
      let low := lowPressureRows t.rows
      let high := highPressureRows t.rows
      if 5 ≤ low.length ∧ 5 ≤ high.length then
        if boolRate (low.map (·.has_symptoms)) > boolRate (high.map (·.has_symptoms)) * (13/10) then
          [⟨"Weather", "low", "good"⟩]
        else []
      else []
    else []
  else []

/-- `AnalysisService.get_actionable_insights`: early-outs on an empty
table or a missing symptom column, applies the five fixed rules in
order (rule 3 mutating the local table in place), and stably sorts the
emitted insights by priority.  The function returns the insight list
together with the table as it stands afterwards, making the in-place
mutation of rule 3 observable. -/
def get_actionable_insights (t : ATable) : List Insight × ATable :=
  if t.rows.isEmpty then ([], t)
  else if !t.hasSymptomCol then ([], t)
  else
    let i1 := ruleSleep t
    let i2 := ruleWeekend t
    let c := ruleCaffeine t
    let i4 := ruleExercise c.2
    let i5 := ruleWeather c.2
    (List.insertionSort insightLE (i1 ++ i2 ++ c.1 ++ i4 ++ i5), c.2)

/-! ### Shared lemmas about the insight pipeline -/

theorem exists_mem_insertionSort (r : α → α → Prop) [DecidableRel r] (l : List α)
    (P : α → Prop) : (∃ a ∈ List.insertionSort r l, P a) ↔ ∃ a ∈ l, P a := by
  constructor
  · rintro ⟨a, ha, hp⟩
    exact ⟨a, (List.perm_insertionSort r l).mem_iff.mp ha, hp⟩
  · rintro ⟨a, ha, hp⟩
    exact ⟨a, (List.perm_insertionSort r l).mem_iff.mpr ha, hp⟩

theorem ruleSleep_category {t : ATable} : ∀ i ∈ ruleSleep t, i.category = "Sleep" := by
  intro i hi
  simp only [ruleSleep] at hi
  split_ifs at hi <;> simp_all

theorem ruleWeekend_category {t : ATable} : ∀ i ∈ ruleWeekend t, i.category = "Lifestyle" := by
  intro i hi
  simp only [ruleWeekend] at hi
  split_ifs at hi <;> simp_all

theorem ruleCaffeine_category {t : ATable} : ∀ i ∈ (ruleCaffeine t).1, i.category = "Diet" := by
  intro i hi
  simp only [ruleCaffeine] at hi
  split_ifs at hi <;> simp_all

theorem ruleExercise_category {t : ATable} : ∀ i ∈ ruleExercise t, i.category = "Exercise" := by
  intro i hi
  simp only [ruleExercise] at hi
  split_ifs at hi <;> simp_all

theorem ruleWeather_category {t : ATable} : ∀ i ∈ ruleWeather t, i.category = "Weather" := by
  intro i hi
  simp only [ruleWeather] at hi
  split_ifs at hi <;> simp_all

theorem ruleCaffeine_snd (t : ATable) :
    (ruleCaffeine t).2 = if t.hasCaffeineCol then caffeineShift t else t := by
  simp only [ruleCaffeine]
  split_ifs <;> rfl

/-! ### Claim C5: frame effect of the analyses on the feature table -/

/-- A one-row table with a caffeine column, as the insight generator
receives it (fresh from the builder: no `caffeine_prev` column yet). -/
def c5table : ATable :=
  ⟨[⟨0, false, false, none, none, some 100, none, none⟩], true, false, false, true, false, false⟩

/-- C5 counterexample.  The claim says no analysis operation changes the
table it operates on and in particular that `get_actionable_insights`
adds no caffeine-shift column; on this table the function returns a
table that differs from its input (a `caffeine_prev` column was added). -/
theorem C5_counterexample : (get_actionable_insights c5table).2 ≠ c5table := by decide

theorem setCaffeinePrev_erase_cp :
    ∀ (p : Option ℚ) (l : List ARow),
      (setCaffeinePrev p l).map (fun r => { r with caffeine_prev := none }) =
        l.map (fun r => { r with caffeine_prev := none })
  | _, [] => rfl
  | p, r :: rest => by
    cases r
    simp only [setCaffeinePrev, List.map]
    exact congrArg _ (setCaffeinePrev_erase_cp _ rest)

theorem setCaffeinePrev_cp_col :
    ∀ (p : Option ℚ) (l : List ARow),
      (setCaffeinePrev p l).map ARow.caffeine_prev =
        (p :: l.map ARow.total_caffeine_mg).take l.length
  | _, [] => rfl
  | p, r :: rest => by
    simp only [setCaffeinePrev, List.map, List.length_cons, List.take_succ_cons]
    exact congrArg _ (setCaffeinePrev_cp_col _ rest)

/-- C5 (amended).  The correlation, lag-correlation, pattern and summary
analyses read the feature table without changing it, but
`get_actionable_insights` does mutate the table it operates on: whenever
the table is nonempty, has a symptom column and has a caffeine column,
rule 3 adds a `caffeine_prev` column holding the positional one-row
shift of `total_caffeine_mg`.  No other column and no other cell is
touched, and since the table was rebuilt fresh inside the call the
mutation is not observable by callers. -/
theorem C5_insights_mutate_caffeine_only (t : ATable) :
    ((get_actionable_insights t).2 =
      if (!t.rows.isEmpty && t.hasSymptomCol && t.hasCaffeineCol) = true
      then caffeineShift t else t) ∧
    (caffeineShift t).rows.map (fun r => { r with caffeine_prev := none }) =
      t.rows.map (fun r => { r with caffeine_prev := none }) ∧
    (caffeineShift t).rows.map ARow.caffeine_prev =
      colShift 1 (t.rows.map ARow.total_caffeine_mg) := by
  refine ⟨?_, setCaffeinePrev_erase_cp none t.rows, ?_⟩
  · simp only [get_actionable_insights]
    by_cases he : t.rows.isEmpty <;> by_cases hs : t.hasSymptomCol <;>
      simp [he, hs, ruleCaffeine_snd]
  · simp only [caffeineShift]
    rw [setCaffeinePrev_cp_col]
    cases t.rows with
    | nil => rfl
    | cons r rest =>
      simp [colShift, List.take_succ_cons, Nat.succ_sub_one, List.replicate]

/-! ### Claim C8: the day-of-week pattern threshold -/

theorem boolRate_nonneg (l : List Bool) : 0 ≤ boolRate l := by
  unfold boolRate
  positivity

theorem boolRate_of_no_true {l : List Bool} (h : ∀ b ∈ l, b = false) : boolRate l = 0 := by
  unfold boolRate
  have : l.filter id = [] := by
    apply List.filter_eq_nil_iff.mpr
    intro b hb
    simp [h b hb]
  simp [this]

theorem qMax_of_all_zero : ∀ {l : List ℚ}, (∀ x ∈ l, x = 0) → qMax l = 0 := by
  have aux : ∀ (xs : List ℚ) (x : ℚ), x = 0 → (∀ y ∈ xs, y = 0) → xs.foldl max x = 0 := by
    intro xs
    induction xs with
    | nil => intro x hx _; exact hx
    | cons y ys ih =>
      intro x hx h
      simp only [List.foldl]
      refine ih _ ?_ fun z hz => h z (List.mem_cons_of_mem _ hz)
      rw [hx, h y (List.mem_cons_self _ _)]
      simp
  intro l h
  cases l with
  | nil => rfl
  | cons x xs => exact aux xs x (h x (List.mem_cons_self _ _)) fun y hy => h y (List.mem_cons_of_mem _ hy)

theorem qMin_of_all_zero : ∀ {l : List ℚ}, (∀ x ∈ l, x = 0) → qMin l = 0 := by
  have aux : ∀ (xs : List ℚ) (x : ℚ), x = 0 → (∀ y ∈ xs, y = 0) → xs.foldl min x = 0 := by
    intro xs
    induction xs with
    | nil => intro x hx _; exact hx
    | cons y ys ih =>
      intro x hx h
      simp only [List.foldl]
      refine ih _ ?_ fun z hz => h z (List.mem_cons_of_mem _ hz)
      rw [hx, h y (List.mem_cons_self _ _)]
      simp
  intro l h
  cases l with
  | nil => rfl
  | cons x xs => exact aux xs x (h x (List.mem_cons_self _ _)) fun y hy => h y (List.mem_cons_of_mem _ hy)

theorem dowRates_of_no_symptoms {rows : List ARow} (h : symCount rows = 0) :
    ∀ q ∈ dowRates rows, q = 0 := by
  intro q hq
  simp only [dowRates, List.mem_map] at hq
  obtain ⟨d, _, rfl⟩ := hq
  apply boolRate_of_no_true
  intro b hb
  simp only [List.mem_map] at hb
  obtain ⟨r, hr, rfl⟩ := hb
  have hrow : r ∈ rows := List.mem_of_mem_filter hr
  by_contra hb
  have htrue : r.has_symptoms = true := by
    cases hsym : r.has_symptoms
    · exact absurd hsym hb
    · rfl
  have : r ∈ rows.filter (·.has_symptoms) := List.mem_filter.mpr ⟨hrow, by simp [htrue]⟩
  have : 0 < (rows.filter (·.has_symptoms)).length := List.length_pos.mpr (by
    intro hnil
    rw [hnil] at this
    exact absurd this (List.not_mem_nil r))
  rw [symCount] at h
  omega

/-- C8.  A day-of-week pattern is emitted iff the spread between the
largest and smallest per-weekday mean symptom rate strictly exceeds
0.15; in particular nothing is emitted at a spread of exactly 0.15.
(The source's extra `has_symptoms.sum() > 0` and nonempty-table gates
are subsumed: a spread above 0.15 forces a nonempty table with at least
one symptom day.) -/
theorem C8_day_of_week_pattern_iff (t : ATable) (hsym : t.hasSymptomCol = true) :
    (∃ p ∈ find_symptom_patterns t, p.pattern_type = "day_of_week") ↔
      qMax (dowRates t.rows) - qMin (dowRates t.rows) > 15/100 := by
  by_cases he : t.rows.isEmpty
  · have hnil : t.rows = [] := List.isEmpty_iff.mp he
    simp [find_symptom_patterns, he, hnil, dowRates, dowValues, uniqueFirst,
      uniqueFirstAux, qMax, qMin]
    norm_num
  · simp only [find_symptom_patterns, he, Bool.false_eq_true, if_false, hsym]
    constructor
    · rintro ⟨p, hp, htype⟩
      rw [List.mem_append] at hp
      rcases hp with hp | hp
      · split_ifs at hp with h
        · exact h.2.2
        · exact absurd hp (List.not_mem_nil p)
      · split_ifs at hp <;> simp_all
    · intro hgt
      have hcount : 0 < symCount t.rows := by
        by_contra hc
        have hzero : symCount t.rows = 0 := by omega
        have h0 := qMax_of_all_zero (dowRates_of_no_symptoms hzero)
        have h1 := qMin_of_all_zero (dowRates_of_no_symptoms hzero)
        rw [h0, h1] at hgt
        norm_num at hgt
      refine ⟨⟨"day_of_week", qMax (dowRates t.rows)⟩, ?_, rfl⟩
      rw [List.mem_append]
      left
      rw [if_pos ⟨trivial, hcount, hgt⟩]
      exact List.mem_singleton.mpr rfl

/-- Concrete two-day table for the C8 witness: all symptoms fall on one
weekday, so the weekday-rate spread is 1. -/
def c8table : ATable :=
  ⟨[⟨0, false, true, none, none, none, none, none⟩,
    ⟨1, false, false, none, none, none, none, none⟩],
   true, false, false, false, false, false⟩

/-- Witness for C8 at a concrete input: spread 1 > 0.15 and the pattern
list indeed contains a day-of-week pattern. -/
theorem C8_witness :
    qMax (dowRates c8table.rows) - qMin (dowRates c8table.rows) > 15/100 ∧
      ∃ p ∈ find_symptom_patterns c8table, p.pattern_type = "day_of_week" :=
  ⟨by decide, (C8_day_of_week_pattern_iff c8table (by decide)).mpr (by decide)⟩

/-! ### Claim C3: the sleep insight threshold -/

theorem get_actionable_insights_fst (t : ATable) (he : t.rows.isEmpty = false)
    (hsym : t.hasSymptomCol = true) :
    (get_actionable_insights t).1 =
      List.insertionSort insightLE
        (ruleSleep t ++ ruleWeekend t ++ (ruleCaffeine t).1 ++
          ruleExercise (ruleCaffeine t).2 ++ ruleWeather (ruleCaffeine t).2) := by
  simp [get_actionable_insights, he, hsym]

theorem ruleSleep_spec (t : ATable) (hs : t.hasSleepCol = true) :
    (∃ i ∈ ruleSleep t, i.category = "Sleep") ↔
      ((5 ≤ (lowSleepRows t.rows).length ∧ 5 ≤ (highSleepRows t.rows).length) ∧
        boolRate ((lowSleepRows t.rows).map (·.has_symptoms)) >
          boolRate ((highSleepRows t.rows).map (·.has_symptoms)) * (13/10)) := by
  simp only [ruleSleep, hs, if_true]
  split_ifs with h1 h2 hq
  · exact ⟨fun _ => ⟨h1, h2⟩,
      fun _ => ⟨⟨"Sleep", "high", "good"⟩, List.mem_singleton_self _, rfl⟩⟩
  · exact ⟨fun _ => ⟨h1, h2⟩,
      fun _ => ⟨⟨"Sleep", "high", "limited"⟩, List.mem_singleton_self _, rfl⟩⟩
  · constructor
    · rintro ⟨i, hi, -⟩
      exact absurd hi (List.not_mem_nil i)
    · rintro ⟨-, hc⟩
      exact absurd hc h2
  · constructor
    · rintro ⟨i, hi, -⟩
      exact absurd hi (List.not_mem_nil i)
    · rintro ⟨ha, -⟩
      exact absurd ha h1

/-- Rows of the sleep table below 70: 20 of them with 13 symptom days
(rate 13/20), against 10 high-sleep rows with 5 symptom days (rate 1/2),
so the low rate equals exactly 1.3 times the high rate. -/
def c3table : ATable :=
  ⟨List.replicate 13 ⟨0, false, true, some 60, none, none, none, none⟩ ++
      List.replicate 7 ⟨0, false, false, some 60, none, none, none, none⟩ ++
      List.replicate 5 ⟨0, false, true, some 80, none, none, none, none⟩ ++
      List.replicate 5 ⟨0, false, false, some 80, none, none, none, none⟩,
   true, true, false, false, false, false⟩

/-- C3 counterexample.  The claim asserts the sleep insight fires when
the low-sleep rate is at least 1.3 times the high-sleep rate, in
particular at exact equality.  Here both groups pass the size gate, the
low rate equals the high rate times 1.3 exactly, and no insight at all
is emitted (the source comparison is strict). -/
theorem C3_counterexample :
    (5 ≤ (lowSleepRows c3table.rows).length ∧ 5 ≤ (highSleepRows c3table.rows).length ∧
      boolRate ((lowSleepRows c3table.rows).map (·.has_symptoms)) =
        boolRate ((highSleepRows c3table.rows).map (·.has_symptoms)) * (13/10)) ∧
      (get_actionable_insights c3table).1 = [] := by
  constructor
  · refine ⟨by decide, by decide, by decide⟩
  · decide

/-- C3 (amended).  For a feature table with a symptom column and a sleep
column, a sleep insight is emitted exactly when both sleep groups have
at least 5 rows and the low-sleep symptom rate strictly exceeds 1.3
times the high-sleep rate (`low_rate > high_rate * 1.3`, not `≥`: at
exact equality nothing is emitted). -/
theorem C3_sleep_insight_iff (t : ATable) (hsym : t.hasSymptomCol = true)
    (hsleep : t.hasSleepCol = true) :
    (∃ i ∈ (get_actionable_insights t).1, i.category = "Sleep") ↔
      (5 ≤ (lowSleepRows t.rows).length ∧ 5 ≤ (highSleepRows t.rows).length ∧
        boolRate ((lowSleepRows t.rows).map (·.has_symptoms)) >
          boolRate ((highSleepRows t.rows).map (·.has_symptoms)) * (13/10)) := by
  rcases hemp : t.rows.isEmpty with _ | _
  · rw [get_actionable_insights_fst t hemp hsym, exists_mem_insertionSort]
    constructor
    · rintro ⟨i, hi, hcat⟩
      simp only [List.mem_append] at hi
      rcases hi with ((((h1 | h2) | h3) | h4) | h5)
      · have := (ruleSleep_spec t hsleep).mp ⟨i, h1, hcat⟩
        exact ⟨this.1.1, this.1.2, this.2⟩
      · rw [ruleWeekend_category i h2] at hcat
        exact absurd hcat (by decide)
      · rw [ruleCaffeine_category i h3] at hcat
        exact absurd hcat (by decide)
      · rw [ruleExercise_category i h4] at hcat
        exact absurd hcat (by decide)
      · rw [ruleWeather_category i h5] at hcat
        exact absurd hcat (by decide)
    · rintro ⟨ha, hb, hc⟩
      obtain ⟨i, hi, hcat⟩ := (ruleSleep_spec t hsleep).mpr ⟨⟨ha, hb⟩, hc⟩
      exact ⟨i, by simp only [List.mem_append]; exact Or.inl (Or.inl (Or.inl (Or.inl hi))), hcat⟩
  · have hnil : t.rows = [] := List.isEmpty_iff.mp hemp
    simp [get_actionable_insights, hemp, hnil, lowSleepRows]

/-- Ten-row sleep table where the sleep insight does fire: 5 low-sleep
rows all with symptoms, 5 high-sleep rows without. -/
def c3wtable : ATable :=
  ⟨List.replicate 5 ⟨0, false, true, some 50, none, none, none, none⟩ ++
      List.replicate 5 ⟨0, false, false, some 90, none, none, none, none⟩,
   true, true, false, false, false, false⟩

/-- Witness for C3 at a concrete input: both gates pass, the rate excess
is strict, and a sleep insight is emitted. -/
theorem C3_witness :
    (5 ≤ (lowSleepRows c3wtable.rows).length ∧ 5 ≤ (highSleepRows c3wtable.rows).length ∧
      boolRate ((lowSleepRows c3wtable.rows).map (·.has_symptoms)) >
        boolRate ((highSleepRows c3wtable.rows).map (·.has_symptoms)) * (13/10)) ∧
      ∃ i ∈ (get_actionable_insights c3wtable).1, i.category = "Sleep" :=
  ⟨⟨by decide, by decide, by decide⟩,
    (C3_sleep_insight_iff c3wtable (by decide) (by decide)).mpr
      ⟨by decide, by decide, by decide⟩⟩

/-! ### Claim C2: the weather insight gates

Rule 5 runs after rule 3 has mutated the table, so these lemmas show
the caffeine-column mutation leaves every pressure-related quantity of
the table unchanged. -/

theorem setCaffeinePrev_filterMap {β : Type} (g : ARow → Option β)
    (hg : ∀ (r : ARow) (p : Option ℚ), g { r with caffeine_prev := p } = g r) :
    ∀ (p : Option ℚ) (l : List ARow), (setCaffeinePrev p l).filterMap g = l.filterMap g
  | _, [] => rfl
  | p, r :: rest => by
    simp only [setCaffeinePrev, List.filterMap_cons, hg r p]
    cases g r with
    | none => exact setCaffeinePrev_filterMap g hg _ rest
    | some b => rw [setCaffeinePrev_filterMap g hg _ rest]

theorem setCaffeinePrev_filter_map {β : Type} (f : ARow → Bool) (g : ARow → β)
    (hf : ∀ (r : ARow) (p : Option ℚ), f { r with caffeine_prev := p } = f r)
    (hg : ∀ (r : ARow) (p : Option ℚ), g { r with caffeine_prev := p } = g r) :
    ∀ (p : Option ℚ) (l : List ARow),
      ((setCaffeinePrev p l).filter f).map g = (l.filter f).map g
  | _, [] => rfl
  | p, r :: rest => by
    have ih := setCaffeinePrev_filter_map f g hf hg r.total_caffeine_mg rest
    cases hfr : f r <;>
      simp [setCaffeinePrev, List.filter_cons, hf r p, hfr, hg r p, ih]

theorem pressureValues_valid (l : List ARow) :
    pressureValues (validPressureRows l) = pressureValues l := by
  induction l with
  | nil => rfl
  | cons r rest ih =>
    simp only [validPressureRows, pressureValues, List.filter_cons] at *
    cases hr : r.pressure_hpa with
    | none => simpa [hr] using ih
    | some v => simpa [hr] using ih

theorem pressureValues_shift (p : Option ℚ) (l : List ARow) :
    pressureValues (setCaffeinePrev p l) = pressureValues l :=
  setCaffeinePrev_filterMap (·.pressure_hpa) (fun _ _ => rfl) p l

theorem pressureQ1_shift (p : Option ℚ) (l : List ARow) :
    pressureQ1 (setCaffeinePrev p l) = pressureQ1 l := by
  unfold pressureQ1
  rw [pressureValues_valid, pressureValues_valid, pressureValues_shift]

theorem pressureQ3_shift (p : Option ℚ) (l : List ARow) :
    pressureQ3 (setCaffeinePrev p l) = pressureQ3 l := by
  unfold pressureQ3
  rw [pressureValues_valid, pressureValues_valid, pressureValues_shift]

theorem validPressureRows_shift_length (l : List ARow) :
    (validPressureRows (setCaffeinePrev none l)).length = (validPressureRows l).length := by
  have h := setCaffeinePrev_filter_map (fun r => r.pressure_hpa.isSome) (fun _ => true)
    (fun _ _ => rfl) (fun _ _ => rfl) none l
  simp only [validPressureRows]
  rw [← List.length_map _ (fun _ => true), h, List.length_map]

theorem lowPressureRows_shift (l : List ARow) :
    (lowPressureRows (setCaffeinePrev none l)).map (·.has_symptoms) =
        (lowPressureRows l).map (·.has_symptoms) ∧
      (lowPressureRows (setCaffeinePrev none l)).length = (lowPressureRows l).length := by
  have hmap : (lowPressureRows (setCaffeinePrev none l)).map (·.has_symptoms) =
      (lowPressureRows l).map (·.has_symptoms) := by
    simp only [lowPressureRows, validPressureRows, pressureQ1_shift, List.filter_filter]
    refine setCaffeinePrev_filter_map _ _ ?_ ?_ none l <;> intros <;> rfl
  refine ⟨hmap, ?_⟩
  rw [← List.length_map _ (·.has_symptoms), hmap, List.length_map]

theorem highPressureRows_shift (l : List ARow) :
    (highPressureRows (setCaffeinePrev none l)).map (·.has_symptoms) =
        (highPressureRows l).map (·.has_symptoms) ∧
      (highPressureRows (setCaffeinePrev none l)).length = (highPressureRows l).length := by
  have hmap : (highPressureRows (setCaffeinePrev none l)).map (·.has_symptoms) =
      (highPressureRows l).map (·.has_symptoms) := by
    simp only [highPressureRows, validPressureRows, pressureQ3_shift, List.filter_filter]
    refine setCaffeinePrev_filter_map _ _ ?_ ?_ none l <;> intros <;> rfl
  refine ⟨hmap, ?_⟩
  rw [← List.length_map _ (·.has_symptoms), hmap, List.length_map]

theorem ruleWeather_spec (t : ATable) (hp : t.hasPressureCol = true) :
    (∃ i ∈ ruleWeather t, i.category = "Weather") ↔
      (20 ≤ (validPressureRows t.rows).length ∧
        (5 ≤ (lowPressureRows t.rows).length ∧ 5 ≤ (highPressureRows t.rows).length) ∧
        boolRate ((lowPressureRows t.rows).map (·.has_symptoms)) >
          boolRate ((highPressureRows t.rows).map (·.has_symptoms)) * (13/10)) := by
  simp only [ruleWeather, hp, if_true]
  split_ifs with h1 h2 h3
  · exact ⟨fun _ => ⟨h1, h2, h3⟩,
      fun _ => ⟨⟨"Weather", "low", "good"⟩, List.mem_singleton_self _, rfl⟩⟩
  · constructor
    · rintro ⟨i, hi, -⟩
      exact absurd hi (List.not_mem_nil i)
    · rintro ⟨-, -, hc⟩
      exact absurd hc h3
  · constructor
    · rintro ⟨i, hi, -⟩
      exact absurd hi (List.not_mem_nil i)
    · rintro ⟨-, hg, -⟩
      exact absurd hg h2
  · constructor
    · rintro ⟨i, hi, -⟩
      exact absurd hi (List.not_mem_nil i)
    · rintro ⟨hv, -, -⟩
      exact absurd hv h1

theorem ruleWeather_after_caffeine (t : ATable) (hp : t.hasPressureCol = true) :
    (∃ i ∈ ruleWeather (ruleCaffeine t).2, i.category = "Weather") ↔
      (20 ≤ (validPressureRows t.rows).length ∧
        (5 ≤ (lowPressureRows t.rows).length ∧ 5 ≤ (highPressureRows t.rows).length) ∧
        boolRate ((lowPressureRows t.rows).map (·.has_symptoms)) >
          boolRate ((highPressureRows t.rows).map (·.has_symptoms)) * (13/10)) := by
  rw [ruleCaffeine_snd]
  split_ifs with hc
  · rw [ruleWeather_spec (caffeineShift t) hp]
    simp only [caffeineShift]
    rw [validPressureRows_shift_length, (lowPressureRows_shift t.rows).1,
      (lowPressureRows_shift t.rows).2, (highPressureRows_shift t.rows).1,
      (highPressureRows_shift t.rows).2]
  · exact ruleWeather_spec t hp

/-- Nineteen distinct-pressure rows: five strictly below the 25th
percentile (all symptom days) and five strictly above the 75th (no
symptom days), but only 19 non-null pressure rows in total. -/
def c2table : ATable :=
  ⟨(List.range 19).map
      (fun i => ⟨0, false, decide (i < 5), none, some ((i + 1 : ℕ) : ℚ), none, none, none⟩),
   true, false, true, false, false, false⟩

/-- C2 counterexample.  The claim says the per-group minimum of 5 is the
only size gate on the weather rule.  Here both quartile groups have 5
rows and the low-pressure rate exceeds 1.3 times the high-pressure rate,
yet no insight is emitted: the source first requires at least 20
non-null pressure rows overall, and this table has 19. -/
theorem C2_counterexample :
    ((validPressureRows c2table.rows).length = 19 ∧
      5 ≤ (lowPressureRows c2table.rows).length ∧
      5 ≤ (highPressureRows c2table.rows).length ∧
      boolRate ((lowPressureRows c2table.rows).map (·.has_symptoms)) ≥
        boolRate ((highPressureRows c2table.rows).map (·.has_symptoms)) * (13/10)) ∧
      (get_actionable_insights c2table).1 = [] := by
  constructor
  · refine ⟨by decide, by decide, by decide, by decide⟩
  · decide

/-- C2 (amended).  For a feature table with a symptom column and a
pressure column, a weather insight is emitted exactly when the table has
at least 20 non-null pressure rows, both strict quartile groups have at
least 5 rows, and the low-pressure symptom rate strictly exceeds 1.3
times the high-pressure rate.  The overall 20-row gate is a further size
gate beyond the per-group minimum of 5, and the relative threshold is
strict (`>`), not `≥`. -/
theorem C2_weather_insight_iff (t : ATable) (hsym : t.hasSymptomCol = true)
    (hpres : t.hasPressureCol = true) :
    (∃ i ∈ (get_actionable_insights t).1, i.category = "Weather") ↔
      (20 ≤ (validPressureRows t.rows).length ∧
        5 ≤ (lowPressureRows t.rows).length ∧ 5 ≤ (highPressureRows t.rows).length ∧
        boolRate ((lowPressureRows t.rows).map (·.has_symptoms)) >
          boolRate ((highPressureRows t.rows).map (·.has_symptoms)) * (13/10)) := by
  rcases hemp : t.rows.isEmpty with _ | _
  · rw [get_actionable_insights_fst t hemp hsym, exists_mem_insertionSort]
    have hpc : (ruleCaffeine t).2.hasPressureCol = t.hasPressureCol := by
      rw [ruleCaffeine_snd]
      split_ifs <;> rfl
    constructor
    · rintro ⟨i, hi, hcat⟩
      simp only [List.mem_append] at hi
      rcases hi with ((((h1 | h2) | h3) | h4) | h5)
      · rw [ruleSleep_category i h1] at hcat
        exact absurd hcat (by decide)
      · rw [ruleWeekend_category i h2] at hcat
        exact absurd hcat (by decide)
      · rw [ruleCaffeine_category i h3] at hcat
        exact absurd hcat (by decide)
      · rw [ruleExercise_category i h4] at hcat
        exact absurd hcat (by decide)
      · have := (ruleWeather_after_caffeine t hpres).mp ⟨i, h5, hcat⟩
        exact ⟨this.1, this.2.1.1, this.2.1.2, this.2.2⟩
    · rintro ⟨hv, hl, hh, hr⟩
      obtain ⟨i, hi, hcat⟩ := (ruleWeather_after_caffeine t hpres).mpr ⟨hv, ⟨hl, hh⟩, hr⟩
      exact ⟨i, by simp only [List.mem_append]; exact Or.inr hi, hcat⟩
  · have hnil : t.rows = [] := List.isEmpty_iff.mp hemp
    simp [get_actionable_insights, hemp, hnil, validPressureRows]

/-- Twenty distinct-pressure rows: the weather rule's every gate passes
and the insight fires. -/
def c2wtable : ATable :=
  ⟨(List.range 20).map
      (fun i => ⟨0, false, decide (i < 5), none, some ((i + 1 : ℕ) : ℚ), none, none, none⟩),
   true, false, true, false, false, false⟩

/-- Witness for C2 at a concrete input: all gates pass and a weather
insight is emitted. -/
theorem C2_witness :
    (20 ≤ (validPressureRows c2wtable.rows).length ∧
      5 ≤ (lowPressureRows c2wtable.rows).length ∧
      5 ≤ (highPressureRows c2wtable.rows).length ∧
      boolRate ((lowPressureRows c2wtable.rows).map (·.has_symptoms)) >
        boolRate ((highPressureRows c2wtable.rows).map (·.has_symptoms)) * (13/10)) ∧
      ∃ i ∈ (get_actionable_insights c2wtable).1, i.category = "Weather" :=
  ⟨⟨by decide, by decide, by decide, by decide⟩,
    (C2_weather_insight_iff c2wtable (by decide) (by decide)).mpr
      ⟨by decide, by decide, by decide, by decide⟩⟩

/-! ## Medication effectiveness analyzer
(`AnalysisService.analyze_medication_effectiveness`)

The function queries raw medication and symptom records from the
storage collaborator (a failing query is the `Except.error` case of the
`query` argument), then analyzes each distinct case-lowered medication
name inside one broad `try`.  The per-medication body is a concrete
total function (`medAnalysis`); the Python body can additionally raise
on malformed dynamic data, so the control-flow skeleton
(`medEffectivenessRun`) takes the per-medication step as a fallible
function, `Except.error` standing for a raised exception caught by the
enclosing `try`. -/

/-- Python `str.lower()`: lowercase every character. -/
def strLower (s : String) : String := ⟨s.data.map Char.toLower⟩

/-- One row of the `medications` table query (date, name, dosage,
time taken; the `purpose` column is never consumed). -/
structure MedRec where
  entry_date : ℕ
  name : String
  dosage : Option String
  time_taken : Option ℕ
deriving DecidableEq, Repr

/-- One row of the `symptoms` table query; `severity` is a non-null
integer column. -/
structure SymRec where
  entry_date : ℕ
  symptom_type : String
  severity : ℤ
  onset_time : Option ℕ
deriving DecidableEq, Repr

/-- One per-medication analysis record.  The `.title()` display casing
of the name, the free-text `effectiveness_notes` and the same-day relief
counters that feed only those notes are presentation and omitted; every
other field of the source dict is kept. -/
structure MedResult where
  medication : String
  dosage : Option String
  times_taken : ℕ
  days_taken : ℕ
  days_with_headache : ℕ
  avg_severity_med_days : Option ℚ
  avg_severity_baseline : Option ℚ
  data_quality : String
deriving DecidableEq, Repr

/-- The headache-category symptom types. -/
def headache_types : List String := ["headache", "headache_neuralgiaform", "neuralgiaform_headache"]

/-- The medication rows whose case-lowered name matches. -/
def medRows (meds : List MedRec) (med_name : String) : List MedRec :=
  meds.filter (fun m => strLower m.name = med_name)

/-- The set of days this medication was taken (distinct dates). -/
def medDates (meds : List MedRec) (med_name : String) : List ℕ :=
  uniqueFirst ((medRows meds med_name).map (·.entry_date))

/-- The headache-category symptom records. -/
def headacheRecs (syms : List SymRec) : List SymRec :=
  syms.filter (fun s => decide (strLower s.symptom_type ∈ headache_types))

/-- Headache records falling on this medication's dosing days. -/
def headacheOnMedDays (meds : List MedRec) (syms : List SymRec) (med_name : String) :
    List SymRec :=
  (headacheRecs syms).filter (fun s => decide (s.entry_date ∈ medDates meds med_name))

/-- Headache records on all other days. -/
def headacheOnOtherDays (meds : List MedRec) (syms : List SymRec) (med_name : String) :
    List SymRec :=
  (headacheRecs syms).filter (fun s => !decide (s.entry_date ∈ medDates meds med_name))

/-- Mean headache severity on dosing days, or `None` with no such record. -/
def avgSeverityMedDays (meds : List MedRec) (syms : List SymRec) (med_name : String) :
    Option ℚ :=
  let l := headacheOnMedDays meds syms med_name
  if 0 < l.length then some (qMean (l.map (fun s => (s.severity : ℚ)))) else none

/-- Mean headache severity on non-dosing days, or `None`. -/
def avgSeverityOtherDays (meds : List MedRec) (syms : List SymRec) (med_name : String) :
    Option ℚ :=
  let l := headacheOnOtherDays meds syms med_name
  if 0 < l.length then some (qMean (l.map (fun s => (s.severity : ℚ)))) else none

/-- The per-medication analysis body (source lines 604-677).  The final
severity fields reproduce Python's `round(avg, 1) if avg else None`:
a `None` mean and a mean of exactly 0 both give `None` (falsy zero). -/
def medAnalysis (meds : List MedRec) (syms : List SymRec) (med_name : String) : MedResult :=
  let med_rows := medRows meds med_name
  let med_dates := medDates meds med_name
  let dosages := uniqueFirst (med_rows.filterMap (·.dosage))
  let headaches := headacheRecs syms
  let headache_dates := uniqueFirst (headaches.map (·.entry_date))
  let avgMed := avgSeverityMedDays meds syms med_name
  let avgOther := avgSeverityOtherDays meds syms med_name
  { medication := med_name
    dosage := dosages.head?
    times_taken := med_rows.length
    days_taken := med_dates.length
    days_with_headache := (med_dates.filter (fun d => decide (d ∈ headache_dates))).length
    avg_severity_med_days :=
      match avgMed with
      | none => none
      | some v => if v = 0 then none else some (roundTo 1 v)
    avg_severity_baseline :=
      match avgOther with
      | none => none
      | some v => if v = 0 then none else some (roundTo 1 v)
    data_quality :=
      if 5 ≤ med_rows.length then "good"
      else if 3 ≤ med_rows.length then "limited" else "insufficient" }

/-- `meds_df['name'].str.lower().unique()`: the distinct case-lowered
medication names in first-appearance order. -/
def medNames (meds : List MedRec) : List String :=
  uniqueFirst (meds.map (fun m => strLower m.name))

/-- The `for med_name in ...` loop inside the single broad `try`: each
step either appends its result or raises, and a raise aborts the whole
loop, keeping only the results accumulated so far (flag `false`). -/
def medLoop (step : String → Except Unit MedResult) :
    List String → List MedResult → List MedResult × Bool
  | [], acc => (acc, true)
  | n :: rest, acc =>
    match step n with
    | Except.ok r => medLoop step rest (acc ++ [r])
    | Except.error _ => (acc, false)

/-- Sort key order for the final most-used-first sort. -/
def medResultLE (a b : MedResult) : Prop := b.times_taken ≤ a.times_taken

instance : DecidableRel medResultLE := fun a b => Nat.decLe b.times_taken a.times_taken

/-- Control-flow skeleton of `analyze_medication_effectiveness`: a
failing storage query is caught and yields `[]`; otherwise the loop runs
over the distinct names, and the final sort by times-taken (inside the
`try`) only happens when no step raised. -/
def medEffectivenessRun (query : Except Unit (List MedRec × List SymRec))
    (step : List MedRec → List SymRec → String → Except Unit MedResult) :
    List MedResult :=
  match query with
  | Except.error _ => []
  | Except.ok (meds, syms) =>
    match medLoop (step meds syms) (medNames meds) [] with
    | (acc, true) => List.insertionSort medResultLE acc
    | (acc, false) => acc

/-- `AnalysisService.analyze_medication_effectiveness`: the skeleton
instantiated with the concrete (total) per-medication body. -/
def analyze_medication_effectiveness (query : Except Unit (List MedRec × List SymRec)) :
    List MedResult :=
  medEffectivenessRun query (fun meds syms name => Except.ok (medAnalysis meds syms name))

/-! ### Claim C1: failure behavior of the medication analysis -/

theorem medLoop_abort (step : String → Except Unit MedResult)
    (l₂ : List String) (bad : String) (hbad : step bad = Except.error ()) :
    ∀ (l₁ : List String) (acc : List MedResult),
      (∀ n ∈ l₁, ∃ r, step n = Except.ok r) →
      medLoop step (l₁ ++ bad :: l₂) acc =
        (acc ++ l₁.filterMap (fun n => (step n).toOption), false)
  | [], acc, _ => by
    simp only [List.nil_append, medLoop, hbad, List.filterMap_nil, List.append_nil]
  | n :: rest, acc, hok => by
    obtain ⟨r, hr⟩ := hok n (List.mem_cons_self n rest)
    have ih := medLoop_abort step l₂ bad hbad rest (acc ++ [r])
      (fun m hm => hok m (List.mem_cons_of_mem n hm))
    simp only [List.cons_append, medLoop, hr, List.append_eq]
    rw [ih]
    simp [List.filterMap_cons, hr, Except.toOption, List.append_assoc]

/-- C1 (amended).  When the per-medication computation raises for one
medication, the exception is caught by the single `try` wrapping the
whole loop: the results of the medications processed before the failing
one are returned (in processing order, without the final
times-taken sort), but the failing medication *and every medication
after it* are dropped — a per-medication failure is fatal to the rest of
the analysis, not just to that one medication.  When the storage query
itself fails, the returned list is empty. -/
theorem C1_medication_failure_behavior (meds : List MedRec) (syms : List SymRec)
    (step : List MedRec → List SymRec → String → Except Unit MedResult)
    (l₁ l₂ : List String) (bad : String)
    (hsplit : medNames meds = l₁ ++ bad :: l₂)
    (hok : ∀ n ∈ l₁, ∃ r, step meds syms n = Except.ok r)
    (hbad : step meds syms bad = Except.error ()) :
    medEffectivenessRun (Except.ok (meds, syms)) step =
        l₁.filterMap (fun n => (step meds syms n).toOption) ∧
      medEffectivenessRun (Except.error ()) step = [] := by
  constructor
  · simp only [medEffectivenessRun]
    rw [hsplit, medLoop_abort (step meds syms) l₂ bad hbad l₁ [] hok]
    simp
  · rfl

/-- Three one-dose medications for the C1 scenario. -/
def c1meds : List MedRec :=
  [⟨0, "a", none, none⟩, ⟨1, "b", none, none⟩, ⟨2, "c", none, none⟩]

/-- A per-medication step that raises on medication "b" only. -/
def c1step : List MedRec → List SymRec → String → Except Unit MedResult :=
  fun _ _ n =>
    if n = "b" then Except.error ()
    else Except.ok ⟨n, none, 1, 1, 0, none, none, "insufficient"⟩

/-- The result the step computes for medication "c". -/
def c1resC : MedResult := ⟨"c", none, 1, 1, 0, none, none, "insufficient"⟩

/-- C1 counterexample.  Medication "b"'s computation raises; medication
"c"'s computation succeeds and "c" is a distinct medication in the
record set, yet "c"'s analysis is missing from the returned list —
contradicting the claim that only the failing medication is skipped. -/
theorem C1_counterexample :
    c1step c1meds [] "c" = Except.ok c1resC ∧
      "c" ∈ medNames c1meds ∧ "c" ≠ "b" ∧
      c1resC ∉ medEffectivenessRun (Except.ok (c1meds, [])) c1step :=
  ⟨rfl, by decide, by decide, by decide⟩

/-- Witness for C1 at a concrete input: with the step failing on "b",
the run keeps exactly medication "a"'s result, and a failing query
yields the empty list. -/
theorem C1_witness :
    medEffectivenessRun (Except.ok (c1meds, [])) c1step =
        ["a"].filterMap (fun n => (c1step c1meds [] n).toOption) ∧
      medEffectivenessRun (Except.error ()) c1step = [] :=
  C1_medication_failure_behavior c1meds [] c1step ["a"] ["c"] "b" (by decide)
    (fun n hn => by
      rw [List.mem_singleton] at hn
      subst hn
      exact ⟨⟨"a", none, 1, 1, 0, none, none, "insufficient"⟩, rfl⟩)
    rfl

/-! ### Claim C4: the averaged severity fields -/

/-- A medication taken once, with a single headache record of severity 0
on that dosing day. -/
def c4meds : List MedRec := [⟨0, "a", none, none⟩]

/-- The single severity-0 headache record for the C4 counterexample. -/
def c4syms : List SymRec := [⟨0, "headache", 0, none⟩]

/-- C4 counterexample.  A headache record exists on the dosing day (the
spec's severity scale includes 0, `Severity.NONE`), so the claim demands
`avg_severity_med_days` equal the rounded mean severity 0.0 — but the
source computes `round(avg, 1) if avg else None`, and a mean of exactly
0.0 is falsy, so the field is `None` instead. -/
theorem C4_counterexample :
    headacheOnMedDays c4meds c4syms "a" ≠ [] ∧
      (medAnalysis c4meds c4syms "a").avg_severity_med_days ≠
        some (roundTo 1
          (qMean ((headacheOnMedDays c4meds c4syms "a").map (fun s => (s.severity : ℚ))))) :=
  ⟨by decide, by decide⟩

/-- C4 (amended).  `avg_severity_med_days` is `None` when no
headache-category record exists on a dosing day; when such records exist
with nonzero mean severity it equals that mean rounded to one decimal;
but when records exist with mean severity exactly 0 the field is `None`
as well (Python's `if avg` treats the mean 0.0 as falsy).
`avg_severity_baseline` behaves identically over the non-dosing days:
`None` without records, the rounded mean when that mean is nonzero,
`None` again at a mean of exactly 0. -/
theorem C4_avg_severity_fields (meds : List MedRec) (syms : List SymRec) (name : String) :
    (headacheOnMedDays meds syms name = [] →
      (medAnalysis meds syms name).avg_severity_med_days = none) ∧
    (headacheOnMedDays meds syms name ≠ [] →
      qMean ((headacheOnMedDays meds syms name).map (fun s => (s.severity : ℚ))) ≠ 0 →
      (medAnalysis meds syms name).avg_severity_med_days =
        some (roundTo 1
          (qMean ((headacheOnMedDays meds syms name).map (fun s => (s.severity : ℚ)))))) ∧
    (headacheOnMedDays meds syms name ≠ [] →
      qMean ((headacheOnMedDays meds syms name).map (fun s => (s.severity : ℚ))) = 0 →
      (medAnalysis meds syms name).avg_severity_med_days = none) ∧
    (headacheOnOtherDays meds syms name = [] →
      (medAnalysis meds syms name).avg_severity_baseline = none) ∧
    (headacheOnOtherDays meds syms name ≠ [] →
      qMean ((headacheOnOtherDays meds syms name).map (fun s => (s.severity : ℚ))) ≠ 0 →
      (medAnalysis meds syms name).avg_severity_baseline =
        some (roundTo 1
          (qMean ((headacheOnOtherDays meds syms name).map (fun s => (s.severity : ℚ)))))) ∧
    (headacheOnOtherDays meds syms name ≠ [] →
      qMean ((headacheOnOtherDays meds syms name).map (fun s => (s.severity : ℚ))) = 0 →
      (medAnalysis meds syms name).avg_severity_baseline = none) := by
  have hmed : (medAnalysis meds syms name).avg_severity_med_days =
      match avgSeverityMedDays meds syms name with
      | none => none
      | some v => if v = 0 then none else some (roundTo 1 v) := rfl
  have hbase : (medAnalysis meds syms name).avg_severity_baseline =
      match avgSeverityOtherDays meds syms name with
      | none => none
      | some v => if v = 0 then none else some (roundTo 1 v) := rfl
  refine ⟨?_, ?_, ?_, ?_, ?_, ?_⟩
  · intro h
    rw [hmed]
    simp [avgSeverityMedDays, h]
  · intro hne hq
    have hlen : 0 < (headacheOnMedDays meds syms name).length := List.length_pos.mpr hne
    have hv : avgSeverityMedDays meds syms name =
        some (qMean ((headacheOnMedDays meds syms name).map (fun s => (s.severity : ℚ)))) := by
      simp [avgSeverityMedDays, hlen]
    rw [hmed, hv]
    simp [hq]
  · intro hne hzero
    have hlen : 0 < (headacheOnMedDays meds syms name).length := List.length_pos.mpr hne
    have hv : avgSeverityMedDays meds syms name =
        some (qMean ((headacheOnMedDays meds syms name).map (fun s => (s.severity : ℚ)))) := by
      simp [avgSeverityMedDays, hlen]
    rw [hmed, hv]
    simp [hzero]
  · intro h
    rw [hbase]
    simp [avgSeverityOtherDays, h]
  · intro hne hq
    have hlen : 0 < (headacheOnOtherDays meds syms name).length := List.length_pos.mpr hne
    have hv : avgSeverityOtherDays meds syms name =
        some (qMean ((headacheOnOtherDays meds syms name).map (fun s => (s.severity : ℚ)))) := by
      simp [avgSeverityOtherDays, hlen]
    rw [hbase, hv]
    simp [hq]
  · intro hne hzero
    have hlen : 0 < (headacheOnOtherDays meds syms name).length := List.length_pos.mpr hne
    have hv : avgSeverityOtherDays meds syms name =
        some (qMean ((headacheOnOtherDays meds syms name).map (fun s => (s.severity : ℚ)))) := by
      simp [avgSeverityOtherDays, hlen]
    rw [hbase, hv]
    simp [hzero]

/-- Medication for the C4 witness: one dose on day 0. -/
def c4wmeds : List MedRec := [⟨0, "a", none, none⟩]

/-- Symptoms for the C4 witness: severities 0 and 6 on the dosing day
(a mixed group with nonzero mean 3) and severity 2 on another day. -/
def c4wsyms : List SymRec :=
  [⟨0, "headache", 0, none⟩, ⟨0, "headache", 6, none⟩, ⟨5, "headache", 2, none⟩]

/-- Witness for C4 at concrete inputs: a mixed zero/positive dosing-day
group with nonzero mean yields the rounded mean, the baseline likewise,
and the all-zero record set of the counterexample data yields `None`
through the mean-zero clause. -/
theorem C4_witness :
    ((headacheOnMedDays c4wmeds c4wsyms "a" ≠ [] ∧
      qMean ((headacheOnMedDays c4wmeds c4wsyms "a").map (fun s => (s.severity : ℚ))) ≠ 0 ∧
      (medAnalysis c4wmeds c4wsyms "a").avg_severity_med_days =
        some (roundTo 1
          (qMean ((headacheOnMedDays c4wmeds c4wsyms "a").map (fun s => (s.severity : ℚ)))))) ∧
      (medAnalysis c4wmeds c4wsyms "a").avg_severity_baseline =
        some (roundTo 1
          (qMean ((headacheOnOtherDays c4wmeds c4wsyms "a").map (fun s => (s.severity : ℚ)))))) ∧
      (medAnalysis c4meds c4syms "a").avg_severity_med_days = none :=
  ⟨⟨⟨by decide, by decide,
      (C4_avg_severity_fields c4wmeds c4wsyms "a").2.1 (by decide) (by decide)⟩,
     (C4_avg_severity_fields c4wmeds c4wsyms "a").2.2.2.2.1 (by decide) (by decide)⟩,
    (C4_avg_severity_fields c4meds c4syms "a").2.2.1 (by decide) (by decide)⟩

/-! ## Correlation analyzer (`AnalysisService.analyze_symptom_correlations`)

The built frame is modelled as a column lookup: `df col` is `none` when
`col` is not in `df.columns`, otherwise the column's cells top to
bottom.  The scipy routines `pearsonr` / `pointbiserialr` are external
collaborators passed in as `StatFn`s on the paired samples; a returned
`none` models a raised exception (caught and skipped per factor). -/

/-- A column lookup standing for the built pandas frame. -/
def DataFrame : Type := String → Option (List (Option ℚ))

/-- An external statistics routine on paired samples, returning
`(r, p)` or raising. -/
def StatFn : Type := List (ℚ × ℚ) → Option (ℚ × ℚ)

/-- A correlation analysis record; the free-text interpretation is
presentation and omitted. -/
structure CorrelationResult where
  factor : String
  correlation : ℚ
  p_value : ℚ
  n_samples : ℕ
deriving DecidableEq, Repr

/-- The fixed continuous candidate factor list (column, display name). -/
def continuous_factors : List (String × String) :=
  [("pressure_hpa", "Barometric Pressure"),
   ("pressure_change", "Pressure Change (from yesterday)"),
   ("temp_avg_c", "Average Temperature"),
   ("humidity_percent", "Humidity"),
   ("sleep_score", "Sleep Score"),
   ("total_sleep_hours", "Total Sleep Duration"),
   ("total_sleep_minutes", "Total Sleep (minutes)"),
   ("deep_sleep_hours", "Deep Sleep Duration"),
   ("hrv_average", "Heart Rate Variability"),
   ("total_activity_minutes", "Exercise Duration"),
   ("elevation_gain", "Climbing (elevation)"),
   ("total_elevation_m", "Total Elevation"),
   ("avg_heart_rate", "Average Exercise HR"),
   ("alcohol_units", "Alcohol Consumption"),
   ("total_alcohol_units", "Total Alcohol Units"),
   ("total_caffeine_mg", "Caffeine (mg)"),
   ("stress_level", "Stress Level"),
   ("energy_level", "Energy Level"),
   ("total_activity_minutes_prev_day", "Previous Day Exercise"),
   ("alcohol_units_prev_day", "Previous Day Alcohol"),
   ("total_alcohol_units_prev_day", "Previous Day Alcohol"),
   ("sleep_score_prev_day", "Previous Night Sleep Score"),
   ("pressure_hpa_prev_day", "Previous Day Pressure"),
   ("total_caffeine_mg_prev_day", "Previous Day Caffeine")]

/-- The fixed binary candidate factor list. -/
def binary_factors : List (String × String) :=
  [("is_weekend", "Weekend"),
   ("alcohol_consumed", "Any Alcohol"),
   ("caffeine_consumed", "Caffeine"),
   ("has_incidents", "Had Incident"),
   ("cat_in_room", "Cat Slept in Room"),
   ("cat_woke_me", "Cat Woke Me Up")]

/-- The continuous-factor loop: skip a missing column, a pairing of
fewer than 5 samples, or a raising statistics call. -/
def contResults (pear : StatFn) (df : DataFrame) (tvals : List (Option ℚ)) :
    List CorrelationResult :=
  continuous_factors.filterMap fun cn =>
    match df cn.1 with
    | none => none
    | some xs =>
      let pairs := pairedData xs tvals
      if pairs.length < 5 then none
      else
        match pear pairs with
        | none => none
        | some rp => some ⟨cn.2, rp.1, rp.2, pairs.length⟩

/-- The binary-factor loop: additionally requires at least two distinct
factor values among the paired samples (`x.nunique() < 2` skip). -/
def binResults (pbr : StatFn) (df : DataFrame) (tvals : List (Option ℚ)) :
    List CorrelationResult :=
  binary_factors.filterMap fun cn =>
    match df cn.1 with
    | none => none
    | some xs =>
      let pairs := pairedData xs tvals
      if pairs.length < 5 ∨ (uniqueFirst (pairs.map Prod.fst)).length < 2 then none
      else
        match pbr pairs with
        | none => none
        | some rp => some ⟨cn.2, rp.1, rp.2, pairs.length⟩

/-- The results in production order: continuous factors in their fixed
list order, then binary factors in theirs. -/
def producedResults (pear pbr : StatFn) (df : DataFrame) (tvals : List (Option ℚ)) :
    List CorrelationResult :=
  contResults pear df tvals ++ binResults pbr df tvals

/-- The descending-|r| sort order (Python `sort(key=|r|, reverse=True)`,
a stable sort). -/
def corrGE (a b : CorrelationResult) : Prop := |b.correlation| ≤ |a.correlation|

instance : DecidableRel corrGE := fun x y =>
  inferInstanceAs (Decidable (|y.correlation| ≤ |x.correlation|))

instance : IsTotal CorrelationResult corrGE :=
  ⟨fun a b => by
    unfold corrGE
    exact le_total |b.correlation| |a.correlation|⟩

instance : IsTrans CorrelationResult corrGE :=
  ⟨fun a b c h1 h2 => by
    unfold corrGE at *
    exact le_trans h2 h1⟩

/-- `AnalysisService.analyze_symptom_correlations`: empty when the
target column is absent, else the produced results stably sorted by
absolute correlation descending. -/
def analyze_symptom_correlations (pear pbr : StatFn) (df : DataFrame) (target : String) :
    List CorrelationResult :=
  match df target with
  | none => []
  | some tvals => List.insertionSort corrGE (producedResults pear pbr df tvals)

/-- C7.  The returned correlation list is sorted by |r| descending, and
the sort is stable: two results with equal |r| that appear in a given
order in the production order (continuous factors first, in list order,
then binary factors) appear in the same order in the output.  This holds
for every behavior of the external scipy routines. -/
theorem C7_sorted_stable (pear pbr : StatFn) (df : DataFrame) (target : String) :
    (analyze_symptom_correlations pear pbr df target).Sorted corrGE ∧
      ∀ x y : CorrelationResult, |x.correlation| = |y.correlation| →
        ∀ tvals, df target = some tvals →
          [x, y].Sublist (producedResults pear pbr df tvals) →
          [x, y].Sublist (analyze_symptom_correlations pear pbr df target) := by
  constructor
  · unfold analyze_symptom_correlations
    cases df target with
    | none => exact List.sorted_nil
    | some tvals => exact List.sorted_insertionSort corrGE _
  · intro x y hxy tvals htv hsub
    unfold analyze_symptom_correlations
    rw [htv]
    exact List.pair_sublist_insertionSort (le_of_eq hxy.symm) hsub

/-- Constant-output stand-ins for the scipy routines in the C7 witness. -/
def c7stat : StatFn := fun _ => some (1/2, 1/100)

/-- A three-column frame (target plus two continuous factors). -/
def c7df : DataFrame := fun s =>
  if s = "temp_avg_c" ∨ s = "sleep_score" ∨ s = "t" then
    some (List.replicate 5 (some 1))
  else none

/-- First produced result in the C7 witness. -/
def c7x : CorrelationResult := ⟨"Average Temperature", 1/2, 1/100, 5⟩

/-- Second produced result in the C7 witness, with the same |r|. -/
def c7y : CorrelationResult := ⟨"Sleep Score", 1/2, 1/100, 5⟩

/-- Witness for C7 at a concrete input: two equal-|r| results keep their
production order in the sorted output. -/
theorem C7_witness :
    (|c7x.correlation| = |c7y.correlation| ∧
      c7df "t" = some (List.replicate 5 (some 1)) ∧
      [c7x, c7y].Sublist (producedResults c7stat c7stat c7df (List.replicate 5 (some 1)))) ∧
      [c7x, c7y].Sublist (analyze_symptom_correlations c7stat c7stat c7df "t") :=
  ⟨⟨by decide, by decide, by decide⟩,
    (C7_sorted_stable c7stat c7stat c7df "t").2 c7x c7y (by decide)
      (List.replicate 5 (some 1)) (by decide) (by decide)⟩

/-! ## Lag correlation analyzer (`AnalysisService.analyze_lag_correlations`)

Per factor the lags 0..max_lag are scanned in ascending order; the state
tracks the strongest screening-significant correlation seen and the full
per-lag result list (`all_lags`, holding the raw r/p/n of each lag whose
pairing reached 10 samples and whose statistics call succeeded). -/

/-- One entry of the per-lag result list (`lag_results`). -/
structure LagEntry where
  lag : ℕ
  r : ℚ
  p : ℚ
  n : ℕ
deriving DecidableEq, Repr

/-- The running scan state (`best_lag`, `best_r`, `best_p`, `best_n`,
`lag_results`). -/
structure LagState where
  best_lag : ℕ
  best_r : ℚ
  best_p : ℚ
  best_n : ℕ
  entries : List LagEntry
deriving DecidableEq, Repr

/-- One emitted lag-correlation record.  `correlation` and `p_value` are
the winner's values rounded for display; `all_lags` keeps the raw
values.  The `lag_description`, `strength` and `interpretation` strings
are presentation and omitted. -/
structure LagResult where
  factor : String
  optimal_lag : ℕ
  correlation : ℚ
  p_value : ℚ
  n_samples : ℕ
  is_significant : Bool
  all_lags : List LagEntry
deriving DecidableEq, Repr

/-- The fixed lag-factor list (column, display name). -/
def lag_factors : List (String × String) :=
  [("total_activity_minutes", "Exercise Duration"),
   ("total_elevation_m", "Elevation Gain"),
   ("sleep_score", "Sleep Score"),
   ("total_sleep_minutes", "Sleep Duration"),
   ("total_caffeine_mg", "Caffeine Intake"),
   ("total_alcohol_units", "Alcohol Units"),
   ("pressure_hpa", "Barometric Pressure"),
   ("overall_wellbeing", "Wellbeing Score"),
   ("total_calories", "Calorie Intake")]

/-- One iteration of the `for lag in range(max_lag_days + 1)` loop:
skip when fewer than 10 paired samples or the statistics call raises;
otherwise append the raw entry and, when `p < 0.1` and `|r|` strictly
beats the running best, take over the best slot. -/
def lagStep (pear : StatFn) (xs tvals : List (Option ℚ)) (st : LagState) (lag : ℕ) :
    LagState :=
  let shifted := if lag = 0 then xs else colShift lag xs
  let pairs := pairedData shifted tvals
  if pairs.length < 10 then st
  else
    match pear pairs with
    | none => st
    | some rp =>
      let st2 := { st with entries := st.entries ++ [⟨lag, rp.1, rp.2, pairs.length⟩] }
      if rp.2 < 1/10 ∧ |st.best_r| < |rp.1| then
        { best_lag := lag, best_r := rp.1, best_p := rp.2, best_n := pairs.length,
          entries := st2.entries }
      else st2

/-- The initial scan state (`best_lag = 0, best_r = 0, best_p = 1.0,
best_n = 0`). -/
def initLagState : LagState := ⟨0, 0, 1, 0, []⟩

/-- The whole lag scan for one factor column. -/
def scanLags (pear : StatFn) (xs tvals : List (Option ℚ)) (max_lag : ℕ) : LagState :=
  (List.range (max_lag + 1)).foldl (lagStep pear xs tvals) initLagState

/-- Emission gate and record assembly: a factor is reported only when
`best_n >= 10` and `best_p < 0.1`; the significance flag uses the
stricter `best_p < 0.05`. -/
def emitLag (name : String) (st : LagState) : Option LagResult :=
  if 10 ≤ st.best_n ∧ st.best_p < 1/10 then
    some ⟨name, st.best_lag, roundTo 3 st.best_r, roundTo 4 st.best_p, st.best_n,
      decide (st.best_p < 1/20), st.entries⟩
  else none

/-- Sort key order of the final sort: significance first, then |r|
descending (Python key `(-int(is_significant), -abs(correlation))`). -/
def lagKeyLE (a b : LagResult) : Prop :=
  (if a.is_significant then 0 else 1 : ℕ) < (if b.is_significant then 0 else 1) ∨
    ((if a.is_significant then 0 else 1 : ℕ) = (if b.is_significant then 0 else 1) ∧
      |b.correlation| ≤ |a.correlation|)

instance : DecidableRel lagKeyLE := fun x y =>
  inferInstanceAs (Decidable
    ((if x.is_significant then 0 else 1 : ℕ) < (if y.is_significant then 0 else 1) ∨
      ((if x.is_significant then 0 else 1 : ℕ) = (if y.is_significant then 0 else 1) ∧
        |y.correlation| ≤ |x.correlation|)))

/-- `AnalysisService.analyze_lag_correlations`: empty when the target
column is absent; otherwise scan each present factor column and collect
the factors passing the emission gate, sorted by significance then
strength. -/
def analyze_lag_correlations (pear : StatFn) (df : DataFrame) (target : String)
    (max_lag : ℕ) : List LagResult :=
  match df target with
  | none => []
  | some tvals =>
    List.insertionSort lagKeyLE
      (lag_factors.filterMap fun cn =>
        match df cn.1 with
        | none => none
        | some xs => emitLag cn.2 (scanLags pear xs tvals max_lag))

/-! ### The scan invariant (claims C6 and C10)

Either no lag has ever been tracked — the best slot still holds its
initial values and every screening-significant entry so far has r = 0 —
or the best slot holds the raw values of some screening-significant
entry whose |r| is maximal among screening-significant entries, with the
smallest lag among those attaining that maximum. -/

def LagInv (M : ℕ) (st : LagState) : Prop :=
  (∀ e ∈ st.entries, e.lag ≤ M ∧ 10 ≤ e.n) ∧
  ((st.best_lag = 0 ∧ st.best_r = 0 ∧ st.best_p = 1 ∧ st.best_n = 0 ∧
      ∀ e ∈ st.entries, e.p < 1/10 → e.r = 0) ∨
    (10 ≤ st.best_n ∧ st.best_p < 1/10 ∧ st.best_r ≠ 0 ∧
      (∃ e ∈ st.entries, e.p < 1/10 ∧ e.lag = st.best_lag ∧ e.r = st.best_r ∧
        e.p = st.best_p ∧ e.n = st.best_n) ∧
      (∀ e ∈ st.entries, e.p < 1/10 → |e.r| ≤ |st.best_r|) ∧
      (∀ e ∈ st.entries, e.p < 1/10 → |e.r| = |st.best_r| → st.best_lag ≤ e.lag)))

theorem lagStep_inv (pear : StatFn) (xs tvals : List (Option ℚ)) (M : ℕ)
    (st : LagState) (lag : ℕ) (hM : lag ≤ M) (hinv : LagInv M st)
    (hlt : ∀ e ∈ st.entries, e.lag < lag) :
    LagInv M (lagStep pear xs tvals st lag) ∧
      ∀ e ∈ (lagStep pear xs tvals st lag).entries, e.lag ≤ lag := by
  obtain ⟨hbound, hcase⟩ := hinv
  have hle : ∀ e ∈ st.entries, e.lag ≤ lag := fun e he => le_of_lt (hlt e he)
  unfold lagStep
  set pairs := pairedData (if lag = 0 then xs else colShift lag xs) tvals with hp
  by_cases hn : pairs.length < 10
  · simp only [hn, if_true]
    exact ⟨⟨hbound, hcase⟩, hle⟩
  · simp only [hn, if_false]
    cases hpear : pear pairs with
    | none => exact ⟨⟨hbound, hcase⟩, hle⟩
    | some rp =>
      have hn10 : 10 ≤ pairs.length := Nat.le_of_not_lt hn
      set enew : LagEntry := ⟨lag, rp.1, rp.2, pairs.length⟩ with henew
      have hbound2 : ∀ e ∈ st.entries ++ [enew], e.lag ≤ M ∧ 10 ≤ e.n := by
        intro e he
        rw [List.mem_append, List.mem_singleton] at he
        rcases he with he | rfl
        · exact hbound e he
        · exact ⟨hM, hn10⟩
      have hle2 : ∀ e ∈ st.entries ++ [enew], e.lag ≤ lag := by
        intro e he
        rw [List.mem_append, List.mem_singleton] at he
        rcases he with he | rfl
        · exact hle e he
        · exact le_refl lag
      by_cases htrack : rp.2 < 1/10 ∧ |st.best_r| < |rp.1|
      · simp only [htrack, and_self, if_true]
        refine ⟨⟨hbound2, Or.inr ?_⟩, hle2⟩
        have hrne : rp.1 ≠ 0 := by
          intro h0
          rw [h0] at htrack
          have := htrack.2
          simp at this
          exact absurd this (not_lt.mpr (abs_nonneg st.best_r))
        refine ⟨hn10, htrack.1, hrne, ⟨enew, ?_, htrack.1, rfl, rfl, rfl, rfl⟩, ?_, ?_⟩
        · rw [List.mem_append, List.mem_singleton]
          exact Or.inr rfl
        · intro e he hq
          rw [List.mem_append, List.mem_singleton] at he
          rcases he with he | rfl
          · rcases hcase with ⟨-, hz, -, -, hall⟩ | ⟨-, -, -, -, hmax, -⟩
            · rw [hall e he hq]
              simp
            · exact le_of_lt (lt_of_le_of_lt (hmax e he hq) htrack.2)
          · exact le_refl _
        · intro e he hq heq
          rw [List.mem_append, List.mem_singleton] at he
          rcases he with he | rfl
          · exfalso
            rcases hcase with ⟨-, hz, -, -, hall⟩ | ⟨-, -, -, -, hmax, -⟩
            · rw [hall e he hq] at heq
              simp at heq
              exact hrne (abs_eq_zero.mp heq.symm)
            · have h1 := hmax e he hq
              rw [heq] at h1
              exact absurd htrack.2 (not_lt.mpr h1)
          · exact le_refl _
      · simp only [htrack, if_false]
        refine ⟨⟨hbound2, ?_⟩, hle2⟩
        rcases hcase with ⟨hl1, hl2, hl3, hl4, hall⟩ | ⟨hr1, hr2, hr3, ⟨ew, hew, hewq, hewl, hewr, hewp, hewn⟩, hmax, htie⟩
        · left
          refine ⟨hl1, hl2, hl3, hl4, ?_⟩
          intro e he hq
          rw [List.mem_append, List.mem_singleton] at he
          rcases he with he | rfl
          · exact hall e he hq
          · have : ¬ |st.best_r| < |rp.1| := fun hcon => htrack ⟨hq, hcon⟩
            rw [hl2] at this
            simp only [abs_zero] at this
            exact abs_eq_zero.mp (le_antisymm (not_lt.mp this) (abs_nonneg _))
        · right
          refine ⟨hr1, hr2, hr3, ⟨ew, ?_, hewq, hewl, hewr, hewp, hewn⟩, ?_, ?_⟩
          · rw [List.mem_append]
            exact Or.inl hew
          · intro e he hq
            rw [List.mem_append, List.mem_singleton] at he
            rcases he with he | rfl
            · exact hmax e he hq
            · exact not_lt.mp fun hcon => htrack ⟨hq, hcon⟩
          · intro e he hq heq
            rw [List.mem_append, List.mem_singleton] at he
            rcases he with he | rfl
            · exact htie e he hq heq
            · have hbl : st.best_lag < lag := by
                have h1 := hlt ew hew
                rw [hewl] at h1
                exact h1
              exact le_of_lt hbl

theorem lagFold_inv (pear : StatFn) (xs tvals : List (Option ℚ)) (M : ℕ) :
    ∀ (lags : List ℕ) (st : LagState), LagInv M st →
      (∀ l ∈ lags, l ≤ M) →
      (∀ e ∈ st.entries, ∀ l ∈ lags, e.lag < l) →
      lags.Pairwise (· < ·) →
      LagInv M (lags.foldl (lagStep pear xs tvals) st)
  | [], _, hinv, _, _, _ => hinv
  | lag :: rest, st, hinv, hle, hlt, hpw => by
    rw [List.foldl_cons]
    obtain ⟨hhead, hpw2⟩ := List.pairwise_cons.mp hpw
    have hstep := lagStep_inv pear xs tvals M st lag (hle lag (List.mem_cons_self _ _))
      hinv (fun e he => hlt e he lag (List.mem_cons_self _ _))
    exact lagFold_inv pear xs tvals M rest _ hstep.1
      (fun l hl => hle l (List.mem_cons_of_mem _ hl))
      (fun e he l hl => lt_of_le_of_lt (hstep.2 e he) (hhead l hl))
      hpw2

theorem scanLags_inv (pear : StatFn) (xs tvals : List (Option ℚ)) (M : ℕ) :
    LagInv M (scanLags pear xs tvals M) := by
  apply lagFold_inv pear xs tvals M (List.range (M + 1)) initLagState
  · exact ⟨fun e he => absurd he (List.not_mem_nil e),
      Or.inl ⟨rfl, rfl, rfl, rfl, fun e he => absurd he (List.not_mem_nil e)⟩⟩
  · intro l hl
    rw [List.mem_range] at hl
    omega
  · intro e he
    exact absurd he (List.not_mem_nil e)
  · exact List.pairwise_lt_range _

/-- C6.  Every emitted lag result's optimal lag lies within
[0, max_lag_days]; the result was emitted only because some scanned lag
entry — the winner, recorded raw in `all_lags` — has n ≥ 10 and
p < 0.1 at that very lag; and the emitted `is_significant` flag is true
exactly when that winning p-value is below 0.05 (the displayed
`correlation` / `p_value` fields are the winner's raw values rounded to
3 and 4 decimals).  This holds for every behavior of the external scipy
routine. -/
theorem C6_lag_result_bounds (pear : StatFn) (df : DataFrame) (target : String)
    (max_lag : ℕ) :
    ∀ res ∈ analyze_lag_correlations pear df target max_lag,
      res.optimal_lag ≤ max_lag ∧ 10 ≤ res.n_samples ∧
        ∃ e ∈ res.all_lags, e.lag = res.optimal_lag ∧ e.n = res.n_samples ∧
          e.p < 1/10 ∧ (res.is_significant = true ↔ e.p < 1/20) ∧
          res.correlation = roundTo 3 e.r ∧ res.p_value = roundTo 4 e.p := by
  intro res hres
  unfold analyze_lag_correlations at hres
  cases hdf : df target with
  | none =>
    rw [hdf] at hres
    exact absurd hres (List.not_mem_nil res)
  | some tvals =>
    rw [hdf] at hres
    have hres2 := (List.perm_insertionSort lagKeyLE _).mem_iff.mp hres
    rw [List.mem_filterMap] at hres2
    obtain ⟨cn, -, hf⟩ := hres2
    revert hf
    cases hxs : df cn.1 with
    | none =>
      intro hf
      exact absurd hf (Option.noConfusion)
    | some xs =>
      intro hf
      have hf2 : emitLag cn.2 (scanLags pear xs tvals max_lag) = some res := hf
      unfold emitLag at hf2
      split_ifs at hf2 with hcond
      · obtain rfl := (Option.some.inj hf2).symm
        obtain ⟨hbound, hcase⟩ := scanLags_inv pear xs tvals max_lag
        rcases hcase with ⟨-, -, -, hn0, -⟩ | ⟨-, -, -, ⟨e, he, heq, hel, her, hep, hen⟩, -, -⟩
        · rw [hn0] at hcond
          omega
        · refine ⟨?_, hcond.1, e, he, hel, hen, ?_, ?_, ?_, ?_⟩
          · show (scanLags pear xs tvals max_lag).best_lag ≤ max_lag
            rw [← hel]
            exact (hbound e he).1
          · rw [hep]
            exact hcond.2
          · show decide ((scanLags pear xs tvals max_lag).best_p < 1/20) = true ↔ e.p < 1/20
            rw [hep]
            exact ⟨of_decide_eq_true, decide_eq_true⟩
          · show roundTo 3 (scanLags pear xs tvals max_lag).best_r = roundTo 3 e.r
            rw [her]
          · show roundTo 4 (scanLags pear xs tvals max_lag).best_p = roundTo 4 e.p
            rw [hep]

/-- The target/factor column for the lag witnesses: ten non-null cells. -/
def c6col : List (Option ℚ) := List.replicate 10 (some 1)

/-- A two-column frame for the C6 witness. -/
def c6df : DataFrame := fun s => if s = "t" ∨ s = "sleep_score" then some c6col else none

/-- A constant stand-in scipy routine for the C6 witness. -/
def c6stat : StatFn := fun _ => some (1/2, 1/100)

/-- The lag result the C6 witness data produces: lag 0 wins (the longer
lags pair fewer than 10 samples and are skipped). -/
def c6res : LagResult :=
  ⟨"Sleep Score", 0, roundTo 3 (1/2), roundTo 4 (1/100), 10, true, [⟨0, 1/2, 1/100, 10⟩]⟩

/-- Witness for C6 at a concrete input. -/
theorem C6_witness :
    c6res ∈ analyze_lag_correlations c6stat c6df "t" 3 ∧
      (c6res.optimal_lag ≤ 3 ∧ 10 ≤ c6res.n_samples ∧
        ∃ e ∈ c6res.all_lags, e.lag = c6res.optimal_lag ∧ e.n = c6res.n_samples ∧
          e.p < 1/10 ∧ (c6res.is_significant = true ↔ e.p < 1/20) ∧
          c6res.correlation = roundTo 3 e.r ∧ c6res.p_value = roundTo 4 e.p) :=
  ⟨by decide, C6_lag_result_bounds c6stat c6df "t" 3 c6res (by decide)⟩

/-- C10.  Among the scanned lag entries that pass the p < 0.1 screen
(all of which have n ≥ 10 by construction), the reported optimal lag is
the smallest lag attaining the maximal |r| — the comparison is strict
and the lags are scanned in ascending order; and a factor all of whose
screening-significant lags have r exactly 0 is never emitted, because
the running best starts at r = 0 and is only displaced by a strictly
larger |r|. -/
theorem C10_optimal_lag_selection (pear : StatFn) (xs tvals : List (Option ℚ))
    (max_lag : ℕ) (name : String) :
    (∀ res, emitLag name (scanLags pear xs tvals max_lag) = some res →
      ∃ e ∈ res.all_lags, e.p < 1/10 ∧ e.lag = res.optimal_lag ∧
        (∀ e2 ∈ res.all_lags, e2.p < 1/10 → |e2.r| ≤ |e.r|) ∧
        ∀ e2 ∈ res.all_lags, e2.p < 1/10 → |e2.r| = |e.r| → e.lag ≤ e2.lag) ∧
    ((∀ e ∈ (scanLags pear xs tvals max_lag).entries, e.p < 1/10 → e.r = 0) →
      emitLag name (scanLags pear xs tvals max_lag) = none) := by
  obtain ⟨hbound, hcase⟩ := scanLags_inv pear xs tvals max_lag
  constructor
  · intro res hf
    unfold emitLag at hf
    split_ifs at hf with hcond
    · obtain rfl := (Option.some.inj hf).symm
      rcases hcase with ⟨-, -, -, hn0, -⟩ | ⟨-, -, -, ⟨e, he, heq, hel, her, hep, hen⟩, hmax, htie⟩
      · rw [hn0] at hcond
        omega
      · refine ⟨e, he, ?_, hel, ?_, ?_⟩
        · rw [hep]
          exact hcond.2
        · intro e2 he2 hq2
          rw [her]
          exact hmax e2 he2 hq2
        · intro e2 he2 hq2 heq2
          rw [hel]
          show (scanLags pear xs tvals max_lag).best_lag ≤ e2.lag
          apply htie e2 he2 hq2
          rw [← her]
          exact heq2
  · intro hzero
    unfold emitLag
    split_ifs with hcond
    · exfalso
      rcases hcase with ⟨-, -, -, hn0, -⟩ | ⟨-, -, hrne, ⟨e, he, heq, -, her, hep, -⟩, -, -⟩
      · rw [hn0] at hcond
        omega
      · apply hrne
        rw [← her]
        apply hzero e he
        rw [hep]
        exact hcond.2
    · rfl

/-- A zero-correlation stand-in scipy routine for the C10 witness. -/
def c10zstat : StatFn := fun _ => some (0, 1/100)

/-- The lag result for the first half of the C10 witness. -/
def c10res : LagResult :=
  ⟨"Sleep Score", 0, roundTo 3 (1/2), roundTo 4 (1/100), 10, true, [⟨0, 1/2, 1/100, 10⟩]⟩

/-- Witness for C10 at concrete inputs: an emitted result's winning lag
is the first argmax among screening-significant entries, and an all-zero
factor is suppressed. -/
theorem C10_witness :
    (∃ e ∈ c10res.all_lags, e.p < 1/10 ∧ e.lag = c10res.optimal_lag ∧
      (∀ e2 ∈ c10res.all_lags, e2.p < 1/10 → |e2.r| ≤ |e.r|) ∧
      ∀ e2 ∈ c10res.all_lags, e2.p < 1/10 → |e2.r| = |e.r| → e.lag ≤ e2.lag) ∧
      emitLag "Sleep Score" (scanLags c10zstat c6col c6col 3) = none :=
  ⟨(C10_optimal_lag_selection c6stat c6col c6col 3 "Sleep Score").1 c10res (by decide),
    (C10_optimal_lag_selection c10zstat c6col c6col 3 "Sleep Score").2 (by decide)⟩

end DailyDiary
